import Mathlib

/-!
Verification of `docker-pg-backup` (src/main.go): a single-shot pipeline
that dumps a PostgreSQL database from a docker container, gzips the dump
into a temporary file, and uploads it to an S3-compatible bucket.

The Go source is shallowly embedded below.  Pure computations (argument
construction, `path.Join`, environment merging, credential-chain
resolution) become Lean functions; the effectful control flow of
`main`/`Backup`/`DumpDB` becomes a function from an oracle (the outcomes
of the fallible external steps) to a run record carrying the result, the
event trace, and the observable filesystem / upload effects.
-/

namespace DockerPgBackup

/-- The flag structure of `main.go` (`type Flags struct`). -/
structure Flags where
  Bucket             : String
  Config             : String
  ContainerNameOrID  : String
  DBName             : String
  DBUser             : String
  Endpoint           : String
  Prefix             : String
  AWSAccessKeyID     : String
  AWSSecretAccessKey : String
deriving Repr, DecidableEq

/-! ### Process environment

The environment is an association list; `envGet` returns `""` for an
absent variable, matching Go's `os.Getenv`, and `envSet` prepends,
matching `os.Setenv`'s overwrite semantics under first-match lookup. -/

/-- A process environment: variable name to value, first match wins. -/
abbrev Env := List (String × String)

/-- `os.Getenv`: the value of variable `k`, `""` when unset. -/
def envGet (env : Env) (k : String) : String :=
  match env.find? (fun p => p.1 = k) with
  | some p => p.2
  | none => ""

/-- `os.Setenv`: set variable `k` to `v` (overwrites any previous value). -/
def envSet (env : Env) (k : String) (v : String) : Env :=
  (k, v) :: env

/-! ### `main`'s export of explicit keys (main.go lines 60-65) -/

/-- The two `if`-guarded `os.Setenv` calls in `main`: the secret key is
exported first, then the access key id, each only when its flag value is
non-empty. -/
def exportAWSKeys (fl : Flags) (env : Env) : Env :=
  let env1 := if fl.AWSSecretAccessKey ≠ "" then
      envSet env "AWS_SECRET_ACCESS_KEY" fl.AWSSecretAccessKey
    else env
  if fl.AWSAccessKeyID ≠ "" then
      envSet env1 "AWS_ACCESS_KEY_ID" fl.AWSAccessKeyID
  else env1

/-! ### Go `path.Clean` / `path.Join`

`Backup` builds the object key with `path.Join` from Go's standard
library.  `path.Join` concatenates the non-empty elements with `/` and
lexically cleans the result (dropping empty and `.` segments and
resolving `..`); we embed that over `List Char`. -/

/-- Split a char list on `/`, keeping empty segments (the accumulator
holds the current segment reversed). -/
def splitSegsAux : List Char → List Char → List (List Char)
  | cur, [] => [cur.reverse]
  | cur, c :: cs =>
    if c = '/' then cur.reverse :: splitSegsAux [] cs
    else splitSegsAux (c :: cur) cs

/-- Split a path into its `/`-separated segments. -/
def splitSegs (p : List Char) : List (List Char) :=
  splitSegsAux [] p

/-- Join segments with `/` separators (inverse of `splitSegs` on
slash-free segments). -/
def joinSegs : List (List Char) → List Char
  | [] => []
  | [s] => s
  | s :: rest => s ++ '/' :: joinSegs rest

/-- Whether a path begins with `/` (`path[0] == '/'` in `path.Clean`). -/
def isRooted (p : List Char) : Bool :=
  match p with
  | c :: _ => c = '/'
  | [] => false

/-- One segment of `path.Clean`'s scan: empty and `.` segments are
dropped; `..` pops the previous real segment, is erased at the root, and
accumulates otherwise; any other segment is kept. -/
def cleanStep (rooted : Bool) (stack : List (List Char)) (seg : List Char) :
    List (List Char) :=
  if seg = [] ∨ seg = ['.'] then stack
  else if seg = ['.', '.'] then
    match stack with
    | s :: rest => if s = ['.', '.'] then seg :: s :: rest else rest
    | [] => if rooted then [] else [['.', '.']]
  else seg :: stack

/-- Go `path.Clean` (lexical cleaning; `""` cleans to `"."`). -/
def pathClean (p : List Char) : List Char :=
  if p = [] then ['.']
  else
    let rooted := isRooted p
    let stack := (splitSegs p).foldl (cleanStep rooted) []
    let body := joinSegs stack.reverse
    if rooted then (if body = [] then ['/'] else '/' :: body)
    else (if body = [] then ['.'] else body)

/-- Go `path.Join`: all-empty input gives `""`; otherwise the non-empty
elements are joined with `/` and the result is cleaned. -/
def pathJoin (elems : List (List Char)) : List Char :=
  if elems.all (fun e => e = []) then []
  else pathClean (joinSegs (elems.filter (fun e => e ≠ [])))

/-- The object key built in `Backup` (main.go line 121):
`path.Join(flags.Prefix, flags.DBName, ts + ".sql.gz")`, where `ts` is
the formatted current UTC time. -/
def objectName (pre db ts : String) : String :=
  ⟨pathJoin [pre.data, db.data, (ts ++ ".sql.gz").data]⟩

/-- A path component that `path.Clean` passes through unchanged:
non-empty, slash-free, and not one of the special segments `.`/`..`. -/
def goodSeg (s : List Char) : Prop :=
  s ≠ [] ∧ '/' ∉ s ∧ s ≠ ['.'] ∧ s ≠ ['.', '.']

instance (s : List Char) : Decidable (goodSeg s) := by
  unfold goodSeg; infer_instance

/-! ### Dump command construction (main.go lines 134-143) -/

/-- The `args` slice built in `DumpDB`. -/
def dumpArgs (container db user : String) : List String :=
  ["exec", container, "pg_dump", "-U", user, db]

/-- The full argument vector of the spawned process:
`exec.CommandContext(ctx, "docker", args...)` sets `cmd.Args` to the
program name followed by `args`. -/
def dumpArgv (container db user : String) : List String :=
  "docker" :: dumpArgs container db user

/-! ### Credential resolution (main.go lines 60-65 and 81-91)

`Backup` builds a `credentials.NewChainCredentials` over the provider
list `[EnvAWS, FileAWSCredentials, IAM, EnvMinio]` from minio-go; the
providers are embedded here from that library's behaviour.  The chain
returns the first provider whose retrieved value has a non-empty access
key id or secret key, and an anonymous value when all are empty. -/

/-- A minio-go `credentials.Value` (the fields the claims speak about). -/
structure CredValue where
  accessKeyID : String
  secretAccessKey : String
  sessionToken : String
deriving Repr, DecidableEq

/-- The anonymous value the chain falls back to. -/
def anonymousCred : CredValue := ⟨"", "", ""⟩

/-- minio-go `EnvAWS.Retrieve`: `AWS_ACCESS_KEY_ID` (fallback
`AWS_ACCESS_KEY`), `AWS_SECRET_ACCESS_KEY` (fallback `AWS_SECRET_KEY`),
and `AWS_SESSION_TOKEN` from the environment. -/
def envAWS (env : Env) : CredValue :=
  let id0 := envGet env "AWS_ACCESS_KEY_ID"
  let id := if id0 = "" then envGet env "AWS_ACCESS_KEY" else id0
  let sec0 := envGet env "AWS_SECRET_ACCESS_KEY"
  let sec := if sec0 = "" then envGet env "AWS_SECRET_KEY" else sec0
  ⟨id, sec, envGet env "AWS_SESSION_TOKEN"⟩

/-- minio-go `FileAWSCredentials.Retrieve`: whatever the shared AWS
credentials file holds (abstracted as an optional value). -/
def fileAWSCredentials (c : Option CredValue) : CredValue :=
  c.getD anonymousCred

/-- minio-go `IAM.Retrieve`: instance-metadata identity credentials
(abstracted as an optional value). -/
def iamProvider (c : Option CredValue) : CredValue :=
  c.getD anonymousCred

/-- minio-go `EnvMinio.Retrieve`: `MINIO_ROOT_USER`/`MINIO_ROOT_PASSWORD`,
falling back to `MINIO_ACCESS_KEY`/`MINIO_SECRET_KEY` when either root
variable is empty. -/
def envMinio (env : Env) : CredValue :=
  let id := envGet env "MINIO_ROOT_USER"
  let sec := envGet env "MINIO_ROOT_PASSWORD"
  if id = "" ∨ sec = "" then
    ⟨envGet env "MINIO_ACCESS_KEY", envGet env "MINIO_SECRET_KEY", ""⟩
  else ⟨id, sec, ""⟩

/-- A provider "yields" when its value carries a non-empty access key id
or secret (minio-go `Chain.Retrieve`'s test). -/
def credYields (v : CredValue) : Bool :=
  v.accessKeyID ≠ "" || v.secretAccessKey ≠ ""

/-- minio-go `Chain.Retrieve`: first yielding provider wins, anonymous
otherwise. -/
def chainRetrieve (ps : List CredValue) : CredValue :=
  match ps.find? credYields with
  | some v => v
  | none => anonymousCred

/-- The credential sources outside the process: the shared credentials
file and the instance-metadata service, plus the initial environment. -/
structure CredWorld where
  env : Env
  fileCreds : Option CredValue
  iamCreds : Option CredValue
deriving Repr, DecidableEq

/-- The provider values, in the order `Backup` lists them (main.go lines
81-88): `EnvAWS`, `FileAWSCredentials`, `IAM`, `EnvMinio`. -/
def backupProviders (env : Env) (fileC iamC : Option CredValue) :
    List CredValue :=
  [envAWS env, fileAWSCredentials fileC, iamProvider iamC, envMinio env]

/-- Credential resolution as the program performs it: `main` exports the
explicit keys into the environment, then `Backup`'s chain resolves. -/
def resolveCreds (fl : Flags) (w : CredWorld) : CredValue :=
  chainRetrieve (backupProviders (exportAWSKeys fl w.env) w.fileCreds w.iamCreds)

/-- Modelled from the spec's words for claim C4: providers tried in
exactly the order explicit keys, process environment, credentials file,
instance-metadata identity; the first that yields credentials wins. -/
def specCredChain (fl : Flags) (w : CredWorld) : CredValue :=
  let explicit : CredValue := ⟨fl.AWSAccessKeyID, fl.AWSSecretAccessKey, ""⟩
  if credYields explicit then explicit
  else if credYields (envAWS w.env) then envAWS w.env
  else if credYields (fileAWSCredentials w.fileCreds) then
    fileAWSCredentials w.fileCreds
  else if credYields (iamProvider w.iamCreds) then iamProvider w.iamCreds
  else anonymousCred

/-- Modelled from the amended claim C4: explicit keys act by being
exported into the AWS environment variables (overwriting them); then the
providers AWS environment, credentials file, instance-metadata identity,
and finally Minio environment are tried in order, the first yielding
non-empty credentials winning. -/
def specCredChainAmended (fl : Flags) (w : CredWorld) : CredValue :=
  let env := exportAWSKeys fl w.env
  if credYields (envAWS env) then envAWS env
  else if credYields (fileAWSCredentials w.fileCreds) then
    fileAWSCredentials w.fileCreds
  else if credYields (iamProvider w.iamCreds) then iamProvider w.iamCreds
  else if credYields (envMinio env) then envMinio env
  else anonymousCred

/-! ### Configuration resolution (`ff.Parse`, main.go lines 48-59)

`ff.Parse` applies, per registered flag: the command line first, then
the `S3_BACKUP`-prefixed environment variable (skipped when empty), then
the config-file entry (plain `name value` format), then the registered
default. -/

/-- One registered flag: name and default value. -/
structure Setting where
  name : String
  dflt : String
deriving Repr, DecidableEq

/-- The flag set registered by `Flags.Register` (main.go lines 36-46). -/
def registeredSettings : List Setting :=
  [⟨"config", ""⟩, ⟨"container", ""⟩, ⟨"db.name", ""⟩, ⟨"db.user", ""⟩,
   ⟨"s3.bucket", ""⟩, ⟨"s3.endpoint", ""⟩, ⟨"s3.prefix", "postgres-backups"⟩,
   ⟨"aws.access_key_id", ""⟩, ⟨"aws.secret_access_key", ""⟩]

/-- ff's environment key for a flag: name upper-cased, `.`/`-`/`/`
replaced by `_`, then prefixed (`ff.WithEnvVarPrefix("S3_BACKUP")`). -/
def envVarKey (name : String) : String :=
  "S3_BACKUP_" ++
    ⟨name.toUpper.data.map
      (fun c => if c = '.' || c = '-' || c = '/' then '_' else c)⟩

/-- The three configuration channels `ff.Parse` reads. -/
structure ParseInput where
  cli : List (String × String)
  env : Env
  file : List (String × String)
deriving Repr, DecidableEq

/-- First-match association lookup. -/
def lookupAssoc (l : List (String × String)) (k : String) : Option String :=
  (l.find? (fun p => p.1 = k)).map (fun p => p.2)

/-- `ff.Parse` resolution of one registered flag: command line beats
environment (an empty environment value is skipped) beats config file
beats the registered default. -/
def resolveSetting (inp : ParseInput) (s : Setting) : String :=
  match lookupAssoc inp.cli s.name with
  | some v => v
  | none =>
    let ev := envGet inp.env (envVarKey s.name)
    if ev ≠ "" then ev
    else
      match lookupAssoc inp.file s.name with
      | some v => v
      | none => s.dflt

/-! ### The run model: `DumpDB`, `Backup`, `main`

The effectful control flow is embedded as functions from an oracle (the
outcome of each fallible external step, `none` meaning success) to a run
record: the returned value, the observable effects, and an event trace.
An event is recorded when the corresponding step has completed (possibly
with a discarded error). -/

/-- Observable events of a run. -/
inductive Ev
  | parseConfig  -- ff.Parse succeeded in main
  | exportKeys   -- the two guarded os.Setenv calls ran
  | parseURL     -- url.Parse succeeded
  | newClient    -- minio.New succeeded
  | mkTemp       -- os.MkdirTemp succeeded
  | runDump      -- cmd.Run returned (its error is discarded)
  | copyDone     -- the copying goroutine was joined (wg.Wait)
  | encClose     -- deferred zw.Close ran
  | fileClose    -- deferred f.Close ran
  | openFile     -- os.Open of the dump file succeeded
  | putObject    -- mc.PutObject succeeded
  | removeTemp   -- deferred os.RemoveAll ran
  | ret          -- Backup returned to its caller
  | fatalExit    -- log.Fatal/log.Fatalln terminated the process
  | exitOk       -- main returned normally
deriving Repr, DecidableEq, BEq

/-- An abstract streaming gzip codec: `compress` is the complete stream
(header, deflate data and trailer) the encoder emits for a byte sequence
once closed; `roundtrip` is `compress/gzip`'s contract that decompressing
a complete stream returns exactly the bytes written. -/
structure GzipCodec where
  compress : List Nat → List Nat
  decompress : List Nat → Option (List Nat)
  roundtrip : ∀ bs, decompress (compress bs) = some bs

/-- Oracle for `DumpDB`: outcomes of `cmd.StdoutPipe`, `os.Create` and
`cmd.Run`, and the bytes the dump command wrote to its stdout. -/
structure DumpOracle where
  pipeErr : Option String
  createErr : Option String
  runErr : Option String
  stdoutBytes : List Nat

/-- Result of a `DumpDB` run. -/
structure DumpResult where
  argv : List String               -- the argument vector of the command
  ret : Option String              -- DumpDB's return value (none = nil)
  fileWritten : Option (List Nat)  -- bytes left in `filename`
  encoderClosed : Bool             -- zw.Close ran before return
  copyCompleted : Bool             -- the goroutine was joined before return
  events : List Ev

/-- `DumpDB` (main.go lines 132-166): builds the docker argv; on pipe or
create failure returns that error.  Otherwise a goroutine copies the
command's whole stdout through the gzip writer into the file, `cmd.Run`
runs (its error is discarded), `wg.Wait` joins the goroutine, and the
deferred `zw.Close` and `f.Close` run, in that order, before `DumpDB`
returns nil. -/
def DumpDB (codec : GzipCodec) (container db user : String)
    (o : DumpOracle) : DumpResult :=
  let argv := dumpArgv container db user
  match o.pipeErr with
  | some e => ⟨argv, some e, none, false, false, []⟩
  | none =>
    match o.createErr with
    | some e => ⟨argv, some e, none, false, false, []⟩
    | none =>
      ⟨argv, none, some (codec.compress o.stdoutBytes), true, true,
        [.runDump, .copyDone, .encClose, .fileClose]⟩

/-- Oracle for a `Backup` run: outcomes of `url.Parse`, `minio.New`,
`os.MkdirTemp`, the dump, `os.Open` and `PutObject`, and the formatted
UTC timestamp `time.Now().UTC().Format("2006-01-02T15_04_05.999999999")`. -/
structure BackupOracle where
  urlErr : Option String
  clientErr : Option String
  mkTempErr : Option String
  dump : DumpOracle
  openErr : Option String
  putErr : Option String
  ts : String

/-- How a control-flow path ends: a returned nil, a returned error, or a
`log.Fatal` that kills the process without returning. -/
inductive Outcome
  | ok
  | err (msg : String)
  | fatal (msg : String)
deriving Repr, DecidableEq

/-- Result of a `Backup` run. -/
structure BackupRun where
  outcome : Outcome
  events : List Ev
  tmpCreated : Bool                -- os.MkdirTemp succeeded
  tmpRemoved : Bool                -- os.RemoveAll ran before return
  objectKey : Option String        -- key handed to PutObject
  uploaded : Option (List Nat)     -- file content handed to PutObject

/-- `Backup` (main.go lines 74-131): `url.Parse` and `minio.New` failures
are `log.Fatalln` (process death, before the temp dir exists); after
`os.MkdirTemp` succeeds, `os.RemoveAll` is deferred and therefore runs on
every return path; then the dump, the reopen of the dump file, the object
key construction and `PutObject` happen in order, each error returned. -/
def Backup (codec : GzipCodec) (fl : Flags) (o : BackupOracle) : BackupRun :=
  match o.urlErr with
  | some e => ⟨.fatal e, [.parseURL, .fatalExit], false, false, none, none⟩
  | none =>
  match o.clientErr with
  | some e =>
    ⟨.fatal e, [.parseURL, .newClient, .fatalExit], false, false, none, none⟩
  | none =>
  match o.mkTempErr with
  | some e => ⟨.err e, [.parseURL, .newClient, .ret], false, false, none, none⟩
  | none =>
    let d := DumpDB codec fl.ContainerNameOrID fl.DBName fl.DBUser o.dump
    let pre := [Ev.parseURL, Ev.newClient, Ev.mkTemp] ++ d.events
    match d.ret with
    | some e => ⟨.err e, pre ++ [.removeTemp, .ret], true, true, none, none⟩
    | none =>
    match o.openErr with
    | some e => ⟨.err e, pre ++ [.removeTemp, .ret], true, true, none, none⟩
    | none =>
      let key := objectName fl.Prefix fl.DBName o.ts
      match o.putErr with
      | some e =>
        ⟨.err e, pre ++ [.openFile, .removeTemp, .ret], true, true,
          some key, d.fileWritten⟩
      | none =>
        ⟨.ok, pre ++ [.openFile, .putObject, .removeTemp, .ret], true, true,
          some key, d.fileWritten⟩

/-- `main` (main.go lines 48-72): parse the configuration, export the
explicit keys, call `Backup` exactly once, and exit — `log.Fatal` on a
returned error, normally otherwise (a `Backup` fatal already ended the
process). -/
def mainRun (codec : GzipCodec) (fl : Flags) (o : BackupOracle) :
    Outcome × List Ev :=
  let b := Backup codec fl o
  let evs := Ev.parseConfig :: Ev.exportKeys :: b.events
  match b.outcome with
  | .ok => (.ok, evs ++ [.exitOk])
  | .err e => (.fatal e, evs ++ [.fatalExit])
  | .fatal e => (.fatal e, evs)

/-- A degenerate codec (length-prefixed identity) used only to
instantiate witness theorems at a concrete codec. -/
def lenCodec : GzipCodec where
  compress bs := bs.length :: bs
  decompress l :=
    match l with
    | [] => none
    | n :: bs => if bs.length = n then some bs else none
  roundtrip := by intro bs; simp

/-! ## Helper lemmas -/

theorem splitSegsAux_nosl (a : List Char) (ha : ∀ c ∈ a, c ≠ '/')
    (cur rest : List Char) :
    splitSegsAux cur (a ++ rest) = splitSegsAux (a.reverse ++ cur) rest := by
  induction a generalizing cur with
  | nil => simp
  | cons c a ih =>
    have hc : c ≠ '/' := ha c (List.mem_cons_self ..)
    have ha' : ∀ x ∈ a, x ≠ '/' := fun x hx => ha x (List.mem_cons_of_mem _ hx)
    simp only [List.cons_append, splitSegsAux, if_neg hc, List.append_eq]
    rw [ih ha']
    simp

theorem splitSegsAux_slash (cur rest : List Char) :
    splitSegsAux cur ('/' :: rest) = cur.reverse :: splitSegsAux [] rest := by
  simp [splitSegsAux]

theorem splitSegs_three (p d z : List Char)
    (hp : ∀ c ∈ p, c ≠ '/') (hd : ∀ c ∈ d, c ≠ '/') (hz : ∀ c ∈ z, c ≠ '/') :
    splitSegs (p ++ '/' :: (d ++ '/' :: z)) = [p, d, z] := by
  have hzz : splitSegsAux [] z = [z] := by
    have h := splitSegsAux_nosl z hz [] []
    simpa [splitSegsAux] using h
  unfold splitSegs
  rw [splitSegsAux_nosl p hp, splitSegsAux_slash,
      splitSegsAux_nosl d hd, splitSegsAux_slash, hzz]
  simp

theorem cleanStep_push (r : Bool) (stack : List (List Char)) (s : List Char)
    (h1 : s ≠ []) (h2 : s ≠ ['.']) (h3 : s ≠ ['.', '.']) :
    cleanStep r stack s = s :: stack := by
  unfold cleanStep
  rw [if_neg (by simp [h1, h2]), if_neg h3]

theorem foldl_cleanStep (r : Bool) (segs : List (List Char))
    (h : ∀ s ∈ segs, s ≠ [] ∧ s ≠ ['.'] ∧ s ≠ ['.', '.'])
    (stack : List (List Char)) :
    segs.foldl (cleanStep r) stack = segs.reverse ++ stack := by
  induction segs generalizing stack with
  | nil => simp
  | cons s segs ih =>
    obtain ⟨h1, h2, h3⟩ := h s (List.mem_cons_self ..)
    simp only [List.foldl_cons, cleanStep_push r stack s h1 h2 h3]
    rw [ih (fun x hx => h x (List.mem_cons_of_mem _ hx))]
    simp

theorem objectName_format (pre db ts : String)
    (h1 : goodSeg pre.data) (h2 : goodSeg db.data)
    (h3 : goodSeg (ts ++ ".sql.gz").data) :
    objectName pre db ts = pre ++ "/" ++ db ++ "/" ++ ts ++ ".sql.gz" := by
  obtain ⟨hp1, hp2, hp3, hp4⟩ := h1
  obtain ⟨hd1, hd2, hd3, hd4⟩ := h2
  obtain ⟨hz1, hz2, hz3, hz4⟩ := h3
  have nosl : ∀ (l : List Char), '/' ∉ l → ∀ c ∈ l, c ≠ '/' :=
    fun l hl c hc he => hl (he ▸ hc)
  have main : ∀ (P D Z : List Char),
      P ≠ [] → '/' ∉ P → P ≠ ['.'] → P ≠ ['.', '.'] →
      D ≠ [] → '/' ∉ D → D ≠ ['.'] → D ≠ ['.', '.'] →
      Z ≠ [] → '/' ∉ Z → Z ≠ ['.'] → Z ≠ ['.', '.'] →
      pathJoin [P, D, Z] = P ++ '/' :: (D ++ '/' :: Z) := by
    intro P D Z hp1 hp2 hp3 hp4 hd1 hd2 hd3 hd4 hz1 hz2 hz3 hz4
    have hqne : P ++ '/' :: (D ++ '/' :: Z) ≠ [] := by cases P <;> simp
    have hclean : pathClean (P ++ '/' :: (D ++ '/' :: Z))
        = P ++ '/' :: (D ++ '/' :: Z) := by
      have hroot : isRooted (P ++ '/' :: (D ++ '/' :: Z)) = false := by
        obtain ⟨c, P', hPc⟩ := List.exists_cons_of_ne_nil hp1
        have hc : c ≠ '/' := nosl _ hp2 c (hPc ▸ List.mem_cons_self ..)
        rw [hPc]
        simp [isRooted, hc]
      have hsplit : splitSegs (P ++ '/' :: (D ++ '/' :: Z)) = [P, D, Z] :=
        splitSegs_three P D Z (nosl _ hp2) (nosl _ hd2) (nosl _ hz2)
      have hfold : [P, D, Z].foldl (cleanStep false) [] = [Z, D, P] := by
        rw [foldl_cleanStep false [P, D, Z] ?_ []]
        · simp
        · intro s hs
          simp only [List.mem_cons, List.not_mem_nil, or_false] at hs
          rcases hs with rfl | rfl | rfl
          · exact ⟨hp1, hp3, hp4⟩
          · exact ⟨hd1, hd3, hd4⟩
          · exact ⟨hz1, hz3, hz4⟩
      unfold pathClean
      rw [if_neg hqne, hroot, hsplit]
      simp only [hfold, List.reverse_cons, List.reverse_nil, List.nil_append]
      show (if joinSegs [P, D, Z] = [] then _ else joinSegs [P, D, Z]) = _
      rw [if_neg (by simp [joinSegs])]
      simp [joinSegs]
    unfold pathJoin
    rw [if_neg (by simp [hp1])]
    have hfil : [P, D, Z].filter (fun e => e ≠ []) = [P, D, Z] := by
      simp [List.filter, hp1, hd1, hz1]
    rw [hfil]
    show pathClean (joinSegs [P, D, Z]) = _
    have hj : joinSegs [P, D, Z] = P ++ '/' :: (D ++ '/' :: Z) := by
      simp [joinSegs]
    rw [hj, hclean]
  apply String.ext
  show pathJoin [pre.data, db.data, (ts ++ ".sql.gz").data] = _
  rw [main pre.data db.data (ts ++ ".sql.gz").data
        hp1 hp2 hp3 hp4 hd1 hd2 hd3 hd4 hz1 hz2 hz3 hz4]
  simp only [String.data_append]
  simp

/-! ## Claims -/

/-- **C1**: For every successful run of `Backup`, the object key under
which the artifact is uploaded is the `path.Join` of the configured
prefix, the database name, and the UTC timestamp with suffix `.sql.gz`;
for components that are plain path segments this is exactly
`prefix/db/timestamp.sql.gz`. -/
theorem backup_object_key_format (codec : GzipCodec) (fl : Flags)
    (o : BackupOracle)
    (h1 : goodSeg fl.Prefix.data) (h2 : goodSeg fl.DBName.data)
    (h3 : goodSeg (o.ts ++ ".sql.gz").data)
    (hok : (Backup codec fl o).outcome = Outcome.ok) :
    (Backup codec fl o).objectKey
        = some (objectName fl.Prefix fl.DBName o.ts) ∧
    (Backup codec fl o).objectKey
        = some (fl.Prefix ++ "/" ++ fl.DBName ++ "/" ++ o.ts ++ ".sql.gz") := by
  have hkey : (Backup codec fl o).objectKey
      = some (objectName fl.Prefix fl.DBName o.ts) := by
    obtain ⟨u, c, m, ⟨pe, ce, re, sb⟩, op, pt, ts⟩ := o
    cases u <;> cases c <;> cases m <;> cases pe <;> cases ce <;>
      cases op <;> cases pt <;> simp_all [Backup, DumpDB]
  exact ⟨hkey, by rw [hkey, objectName_format _ _ _ h1 h2 h3]⟩

/-- Witness for C1: a concrete successful run and its object key. -/
theorem backup_object_key_format_witness :
    (Backup lenCodec
        ⟨"bkt", "", "cont", "mydb", "admin", "https://s3.example.com",
          "postgres-backups", "", ""⟩
        ⟨none, none, none, ⟨none, none, none, [1]⟩, none, none,
          "2026-10-11T00_00_00"⟩).objectKey
      = some "postgres-backups/mydb/2026-10-11T00_00_00.sql.gz" := by
  have h := backup_object_key_format lenCodec
    ⟨"bkt", "", "cont", "mydb", "admin", "https://s3.example.com",
      "postgres-backups", "", ""⟩
    ⟨none, none, none, ⟨none, none, none, [1]⟩, none, none,
      "2026-10-11T00_00_00"⟩
    (by decide) (by decide) (by decide) (by decide)
  rw [h.2]
  rfl

/-- **C2**: When the stdout pipe and the output file are set up, the
file `DumpDB` writes is the complete streaming gzip compression of the
dump command's stdout — decompressing it returns exactly those bytes —
and by the time `DumpDB` returns the copying goroutine has been joined
and the encoder closed. -/
theorem dumpdb_gzip_roundtrip (codec : GzipCodec) (container db user : String)
    (o : DumpOracle) (hp : o.pipeErr = none) (hc : o.createErr = none) :
    (DumpDB codec container db user o).fileWritten
        = some (codec.compress o.stdoutBytes) ∧
    ((DumpDB codec container db user o).fileWritten.bind codec.decompress)
        = some o.stdoutBytes ∧
    (DumpDB codec container db user o).copyCompleted = true ∧
    (DumpDB codec container db user o).encoderClosed = true := by
  obtain ⟨pe, ce, re, sb⟩ := o
  simp only at hp hc
  subst hp; subst hc
  simp [DumpDB, codec.roundtrip]

/-- Witness for C2 at a concrete codec and dump output. -/
theorem dumpdb_gzip_roundtrip_witness :
    (DumpDB lenCodec "c" "d" "u" ⟨none, none, none, [5, 6]⟩).fileWritten
        = some (lenCodec.compress [5, 6]) ∧
    ((DumpDB lenCodec "c" "d" "u" ⟨none, none, none, [5, 6]⟩).fileWritten.bind
        lenCodec.decompress) = some [5, 6] ∧
    (DumpDB lenCodec "c" "d" "u" ⟨none, none, none, [5, 6]⟩).copyCompleted
        = true ∧
    (DumpDB lenCodec "c" "d" "u" ⟨none, none, none, [5, 6]⟩).encoderClosed
        = true :=
  dumpdb_gzip_roundtrip lenCodec "c" "d" "u" ⟨none, none, none, [5, 6]⟩ rfl rfl

/-- **C3**: The external dump command is invoked with exactly the
argument vector `["docker", "exec", container, "pg_dump", "-U", user,
db]`, in that order, with no other arguments. -/
theorem dump_command_argv (codec : GzipCodec) (container db user : String)
    (o : DumpOracle) :
    (DumpDB codec container db user o).argv
      = ["docker", "exec", container, "pg_dump", "-U", user, db] := by
  obtain ⟨pe, ce, re, sb⟩ := o
  cases pe <;> cases ce <;> rfl

/-- **C4** as stated is false: with no explicit keys, an AWS-empty
environment, no credentials file and no instance identity, the claimed
chain (explicit keys, environment, file, instance metadata) resolves
nothing, yet the program still obtains credentials — from the Minio
environment variables, a provider the claim's list does not contain. -/
theorem cred_chain_counterexample :
    resolveCreds ⟨"", "", "", "", "", "", "", "", ""⟩
        ⟨[("MINIO_ROOT_USER", "u"), ("MINIO_ROOT_PASSWORD", "p")], none, none⟩
      ≠ specCredChain ⟨"", "", "", "", "", "", "", "", ""⟩
        ⟨[("MINIO_ROOT_USER", "u"), ("MINIO_ROOT_PASSWORD", "p")], none,
          none⟩ := by
  decide

/-- **C4 amended**: explicit keys act by being exported into the AWS
environment variables (overwriting them) before resolution; the chain
then tries the AWS environment, the credentials file, instance-metadata
identity, and finally the Minio environment variables, the first
provider yielding non-empty credentials winning. -/
theorem cred_chain_amended (fl : Flags) (w : CredWorld) :
    resolveCreds fl w = specCredChainAmended fl w := by
  by_cases h1 : credYields (envAWS (exportAWSKeys fl w.env)) = true <;>
  by_cases h2 : credYields (fileAWSCredentials w.fileCreds) = true <;>
  by_cases h3 : credYields (iamProvider w.iamCreds) = true <;>
  by_cases h4 : credYields (envMinio (exportAWSKeys fl w.env)) = true <;>
    simp [resolveCreds, specCredChainAmended, chainRetrieve, backupProviders,
      List.find?, h1, h2, h3, h4]

/-- **C5**: Once the temporary directory has been created, `Backup`
removes it before returning, on the nil path and on every error path:
the trace of any run that created it ends with the removal followed by
the return. -/
theorem backup_tmpdir_cleanup (codec : GzipCodec) (fl : Flags)
    (o : BackupOracle) (h : (Backup codec fl o).tmpCreated = true) :
    (Backup codec fl o).tmpRemoved = true ∧
    [Ev.removeTemp, Ev.ret] <:+ (Backup codec fl o).events := by
  obtain ⟨u, c, m, ⟨pe, ce, re, sb⟩, op, pt, ts⟩ := o
  cases u with
  | some e => exact Bool.noConfusion h
  | none =>
  cases c with
  | some e => exact Bool.noConfusion h
  | none =>
  cases m with
  | some e => exact Bool.noConfusion h
  | none =>
  cases pe with
  | some e => exact ⟨rfl, [Ev.parseURL, Ev.newClient, Ev.mkTemp], rfl⟩
  | none =>
  cases ce with
  | some e => exact ⟨rfl, [Ev.parseURL, Ev.newClient, Ev.mkTemp], rfl⟩
  | none =>
  cases op with
  | some e =>
    exact ⟨rfl, [Ev.parseURL, Ev.newClient, Ev.mkTemp, Ev.runDump,
      Ev.copyDone, Ev.encClose, Ev.fileClose], rfl⟩
  | none =>
  cases pt with
  | some e =>
    exact ⟨rfl, [Ev.parseURL, Ev.newClient, Ev.mkTemp, Ev.runDump,
      Ev.copyDone, Ev.encClose, Ev.fileClose, Ev.openFile], rfl⟩
  | none =>
    exact ⟨rfl, [Ev.parseURL, Ev.newClient, Ev.mkTemp, Ev.runDump,
      Ev.copyDone, Ev.encClose, Ev.fileClose, Ev.openFile, Ev.putObject],
      rfl⟩

/-- Witness for C5: a run failing at `PutObject` still removes the
directory before returning. -/
theorem backup_tmpdir_cleanup_witness :
    (Backup lenCodec ⟨"", "", "", "", "", "", "", "", ""⟩
        ⟨none, none, none, ⟨none, none, none, []⟩, none, some "put failed",
          "t"⟩).tmpRemoved = true ∧
    [Ev.removeTemp, Ev.ret] <:+
      (Backup lenCodec ⟨"", "", "", "", "", "", "", "", ""⟩
        ⟨none, none, none, ⟨none, none, none, []⟩, none, some "put failed",
          "t"⟩).events :=
  backup_tmpdir_cleanup lenCodec ⟨"", "", "", "", "", "", "", "", ""⟩
    ⟨none, none, none, ⟨none, none, none, []⟩, none, some "put failed", "t"⟩
    (by decide)

/-- **C6**: When the stdout pipe and the output file have been set up, a
failing `cmd.Run` is ignored — `DumpDB` returns nil — and `Backup`
proceeds to upload whatever (compressed) partial output the command
emitted. -/
theorem dumpdb_ignores_run_error (codec : GzipCodec) (fl : Flags)
    (o : BackupOracle) (e : String)
    (hu : o.urlErr = none) (hc : o.clientErr = none) (hm : o.mkTempErr = none)
    (hp : o.dump.pipeErr = none) (hcr : o.dump.createErr = none)
    (hr : o.dump.runErr = some e)
    (ho : o.openErr = none) (hpt : o.putErr = none) :
    (DumpDB codec fl.ContainerNameOrID fl.DBName fl.DBUser o.dump).ret
        = none ∧
    (Backup codec fl o).outcome = Outcome.ok ∧
    (Backup codec fl o).uploaded
        = some (codec.compress o.dump.stdoutBytes) ∧
    Ev.putObject ∈ (Backup codec fl o).events := by
  obtain ⟨u, c, m, ⟨pe, ce, re, sb⟩, op, pt, ts⟩ := o
  simp only at hu hc hm hp hcr hr ho hpt
  subst hu; subst hc; subst hm; subst hp; subst hcr; subst hr
  subst ho; subst hpt
  refine ⟨rfl, rfl, rfl, ?_⟩
  show Ev.putObject ∈ [Ev.parseURL, Ev.newClient, Ev.mkTemp, Ev.runDump,
    Ev.copyDone, Ev.encClose, Ev.fileClose, Ev.openFile, Ev.putObject,
    Ev.removeTemp, Ev.ret]
  simp

/-- Witness for C6: a concrete run whose dump command failed but whose
partial output is uploaded. -/
theorem dumpdb_ignores_run_error_witness :
    (DumpDB lenCodec "" "" "" ⟨none, none, some "exit 1", [7]⟩).ret = none ∧
    (Backup lenCodec ⟨"", "", "", "", "", "", "", "", ""⟩
        ⟨none, none, none, ⟨none, none, some "exit 1", [7]⟩, none, none,
          "t"⟩).outcome = Outcome.ok ∧
    (Backup lenCodec ⟨"", "", "", "", "", "", "", "", ""⟩
        ⟨none, none, none, ⟨none, none, some "exit 1", [7]⟩, none, none,
          "t"⟩).uploaded = some (lenCodec.compress [7]) ∧
    Ev.putObject ∈
      (Backup lenCodec ⟨"", "", "", "", "", "", "", "", ""⟩
        ⟨none, none, none, ⟨none, none, some "exit 1", [7]⟩, none, none,
          "t"⟩).events :=
  dumpdb_ignores_run_error lenCodec ⟨"", "", "", "", "", "", "", "", ""⟩
    ⟨none, none, none, ⟨none, none, some "exit 1", [7]⟩, none, none, "t"⟩
    "exit 1" rfl rfl rfl rfl rfl rfl rfl rfl

/-- **C7**: Control flow is strictly sequential and single-shot: every
run ends in a process exit, performs at most one dump, one encoder
finalisation and one upload, and a fully successful run performs exactly
the pipeline config → dump → compress-close → open → upload → cleanup →
return → exit, once, in that order. -/
theorem single_shot_pipeline (codec : GzipCodec) (fl : Flags) :
    (∀ o : BackupOracle,
      ((mainRun codec fl o).2.count Ev.runDump ≤ 1 ∧
       (mainRun codec fl o).2.count Ev.encClose ≤ 1 ∧
       (mainRun codec fl o).2.count Ev.putObject ≤ 1) ∧
      ((mainRun codec fl o).2.getLast? = some Ev.exitOk ∨
       (mainRun codec fl o).2.getLast? = some Ev.fatalExit)) ∧
    (∀ o : BackupOracle, o.urlErr = none → o.clientErr = none →
      o.mkTempErr = none → o.dump.pipeErr = none → o.dump.createErr = none →
      o.openErr = none → o.putErr = none →
      (mainRun codec fl o).1 = Outcome.ok ∧
      (mainRun codec fl o).2 =
        [Ev.parseConfig, Ev.exportKeys, Ev.parseURL, Ev.newClient, Ev.mkTemp,
         Ev.runDump, Ev.copyDone, Ev.encClose, Ev.fileClose, Ev.openFile,
         Ev.putObject, Ev.removeTemp, Ev.ret, Ev.exitOk]) := by
  constructor
  · intro o
    obtain ⟨u, c, m, ⟨pe, ce, re, sb⟩, op, pt, ts⟩ := o
    cases u <;> cases c <;> cases m <;> cases pe <;> cases ce <;>
      cases op <;> cases pt <;>
      refine ⟨⟨?_, ?_, ?_⟩, ?_⟩ <;>
      first
        | exact Nat.le_refl _
        | exact Nat.zero_le _
        | exact Or.inl rfl
        | exact Or.inr rfl
  · intro o hu hc hm hp hcr ho hpt
    obtain ⟨u, c, m, ⟨pe, ce, re, sb⟩, op, pt, ts⟩ := o
    simp only at hu hc hm hp hcr ho hpt
    subst hu; subst hc; subst hm; subst hp; subst hcr; subst ho; subst hpt
    exact ⟨rfl, rfl⟩

/-- Witness for C7: the trace of a concrete fully successful run. -/
theorem single_shot_pipeline_witness :
    (mainRun lenCodec ⟨"", "", "", "", "", "", "", "", ""⟩
        ⟨none, none, none, ⟨none, none, none, []⟩, none, none, "t"⟩).1
      = Outcome.ok ∧
    (mainRun lenCodec ⟨"", "", "", "", "", "", "", "", ""⟩
        ⟨none, none, none, ⟨none, none, none, []⟩, none, none, "t"⟩).2 =
      [Ev.parseConfig, Ev.exportKeys, Ev.parseURL, Ev.newClient, Ev.mkTemp,
       Ev.runDump, Ev.copyDone, Ev.encClose, Ev.fileClose, Ev.openFile,
       Ev.putObject, Ev.removeTemp, Ev.ret, Ev.exitOk] :=
  (single_shot_pipeline lenCodec ⟨"", "", "", "", "", "", "", "", ""⟩).2
    ⟨none, none, none, ⟨none, none, none, []⟩, none, none, "t"⟩
    rfl rfl rfl rfl rfl rfl rfl

/-- **C8**: A `url.Parse` failure or a `minio.New` failure makes `Backup`
die through `log.Fatalln` — it neither returns nil nor an error, and the
temporary directory has not been created at that point. -/
theorem backup_fatal_paths (codec : GzipCodec) (fl : Flags)
    (o : BackupOracle) :
    (∀ e, o.urlErr = some e →
      Backup codec fl o =
        ⟨Outcome.fatal e, [Ev.parseURL, Ev.fatalExit], false, false,
          none, none⟩) ∧
    (∀ e, o.urlErr = none → o.clientErr = some e →
      Backup codec fl o =
        ⟨Outcome.fatal e, [Ev.parseURL, Ev.newClient, Ev.fatalExit],
          false, false, none, none⟩) := by
  obtain ⟨u, c, m, dmp, op, pt, ts⟩ := o
  constructor
  · intro e he
    simp only at he
    subst he
    rfl
  · intro e hu hc
    simp only at hu hc
    subst hu; subst hc
    rfl

/-- Witness for C8: a concrete endpoint-parse failure is fatal. -/
theorem backup_fatal_paths_witness :
    Backup lenCodec ⟨"", "", "", "", "", "", "", "", ""⟩
        ⟨some "bad endpoint", none, none, ⟨none, none, none, []⟩, none, none,
          "t"⟩ =
      ⟨Outcome.fatal "bad endpoint", [Ev.parseURL, Ev.fatalExit], false,
        false, none, none⟩ :=
  (backup_fatal_paths lenCodec ⟨"", "", "", "", "", "", "", "", ""⟩
      ⟨some "bad endpoint", none, none, ⟨none, none, none, []⟩, none, none,
        "t"⟩).1
    "bad endpoint" rfl

/-- **C9**: Each registered setting can be supplied through any of the
three channels — command-line flag, `S3_BACKUP`-prefixed environment
variable, or config-file entry — and reaches the settings structure. -/
theorem config_three_channels (s : Setting) (_hs : s ∈ registeredSettings)
    (v : String) (hv : v ≠ "") :
    resolveSetting ⟨[(s.name, v)], [], []⟩ s = v ∧
    resolveSetting ⟨[], [(envVarKey s.name, v)], []⟩ s = v ∧
    resolveSetting ⟨[], [], [(s.name, v)]⟩ s = v := by
  refine ⟨?_, ?_, ?_⟩ <;>
    simp [resolveSetting, lookupAssoc, envGet, List.find?, hv]

/-- Witness for C9: the database name supplied through each channel. -/
theorem config_three_channels_witness :
    resolveSetting ⟨[("db.name", "mydb")], [], []⟩ ⟨"db.name", ""⟩ = "mydb" ∧
    resolveSetting ⟨[], [(envVarKey "db.name", "mydb")], []⟩ ⟨"db.name", ""⟩
      = "mydb" ∧
    resolveSetting ⟨[], [], [("db.name", "mydb")]⟩ ⟨"db.name", ""⟩ = "mydb" :=
  config_three_channels ⟨"db.name", ""⟩ (by decide) "mydb" (by decide)

/-- **C10**: The explicit keys take effect solely through the
environment: after `main`'s exports, each of the two AWS variables holds
the flag value exactly when that flag is non-empty, and the pre-existing
environment value otherwise — independently of the other half. -/
theorem explicit_keys_env_export (fl : Flags) (env : Env) :
    envGet (exportAWSKeys fl env) "AWS_SECRET_ACCESS_KEY"
      = (if fl.AWSSecretAccessKey ≠ "" then fl.AWSSecretAccessKey
         else envGet env "AWS_SECRET_ACCESS_KEY") ∧
    envGet (exportAWSKeys fl env) "AWS_ACCESS_KEY_ID"
      = (if fl.AWSAccessKeyID ≠ "" then fl.AWSAccessKeyID
         else envGet env "AWS_ACCESS_KEY_ID") := by
  unfold exportAWSKeys envSet
  by_cases h1 : fl.AWSSecretAccessKey = "" <;>
  by_cases h2 : fl.AWSAccessKeyID = "" <;>
    simp [h1, h2, envGet, List.find?]

end DockerPgBackup
